import Mathlib

/-!
Verification of the CodeCompass analysis engine
(`src/codecompass_engine/main.py` and `api/index.py`).

The syntax-tree layer (tree-sitter) is external: captures produced by a
structural query are modelled as an explicit list of `(node, capture-name)`
pairs, exactly the shape the Python code iterates over.  All text handling
(the two regexes, Python `str.strip`) is embedded faithfully over `List Char`.
-/

namespace CodeCompass

/-! ### Character classes (ASCII, as in the Python regexes) -/

/-- Models the regex class `[a-z]`. -/
def isLowerChar (c : Char) : Bool := 'a' ≤ c && c ≤ 'z'

/-- Models the regex class `[A-Z]`. -/
def isUpperChar (c : Char) : Bool := 'A' ≤ c && c ≤ 'Z'

/-- Models the regex class `[0-9]`. -/
def isDigitChar (c : Char) : Bool := '0' ≤ c && c ≤ '9'

/-- Models the regex class `[a-zA-Z0-9]`. -/
def isAlnumChar (c : Char) : Bool := isLowerChar c || isUpperChar c || isDigitChar c

/-- Not a newline: the characters the regex `.` can match (no `re.DOTALL`). -/
def notNewline (c : Char) : Bool := c != '\n'

/-- The three delimiter characters of `str.strip('\'"`')` in
`_find_hardcoded_secrets`: single quote (39), double quote (34),
backquote (96). -/
def quoteChars : List Char := [Char.ofNat 39, Char.ofNat 34, Char.ofNat 96]

def isQuoteChar (c : Char) : Bool := quoteChars.contains c

/-- Python `s.strip('\'"`')`: remove ALL leading and ALL trailing
characters of the delimiter set (this is `str.strip` semantics). -/
def strip_quotes (s : List Char) : List Char :=
  ((s.dropWhile isQuoteChar).reverse.dropWhile isQuoteChar).reverse

/-! ### The two regex heuristics -/

/-- The alternatives of `SENSITIVE_VAR_REGEX = re.compile(r'key|secret|token|password|cred', re.IGNORECASE)`. -/
def SENSITIVE_WORDS : List (List Char) :=
  ["key".toList, "secret".toList, "token".toList, "password".toList, "cred".toList]

/-- `w` occurs as a contiguous substring of `s`. -/
def containsSub (w s : List Char) : Bool := s.tails.any fun t => w.isPrefixOf t

/-- Models `SENSITIVE_VAR_REGEX.search(s) is not None`: unanchored,
case-insensitive search for any of the five alternatives.  `re.IGNORECASE`
on ASCII literals is modelled by lower-casing the subject
(`Char.toLower` maps exactly the ASCII range). -/
def SENSITIVE_VAR_REGEX_search (s : List Char) : Bool :=
  SENSITIVE_WORDS.any fun w => containsSub w (s.map Char.toLower)

/-- Models a match attempt of
`HIGH_ENTROPY_REGEX = re.compile(r'(?=.*[a-z])(?=.*[A-Z])(?=.*[0-9])[a-zA-Z0-9]{20,}')`
at a fixed start position, `t` being the suffix starting there: each lookahead
`(?=.*X)` sees the part of `t` before the first newline (`.` does not cross
newlines), and the body requires at least 20 consecutive `[a-zA-Z0-9]`
characters at the start of `t`. -/
def HIGH_ENTROPY_REGEX_matchAt (t : List Char) : Bool :=
  ((t.takeWhile notNewline).any isLowerChar) &&
  ((t.takeWhile notNewline).any isUpperChar) &&
  ((t.takeWhile notNewline).any isDigitChar) &&
  (decide (20 ≤ t.length) && (t.take 20).all isAlnumChar)

/-- Models `HIGH_ENTROPY_REGEX.search(s) is not None`: `re.search` tries every
start position, i.e. every suffix of `s`. -/
def HIGH_ENTROPY_REGEX_search (s : List Char) : Bool :=
  s.tails.any HIGH_ENTROPY_REGEX_matchAt

/-! ### Data model of tree-sitter captures and findings -/

/-- The pieces of a tree-sitter node the detector reads: `node.id`
(identity), `node.parent` (compared by identity; `none` for the root),
`node.start_point[0]` (0-based start row) and `node.text` (decoded utf-8). -/
structure TSNode where
  id : Nat
  parentId : Option Nat
  startRow : Nat
  text : List Char
deriving DecidableEq

/-- One emitted opportunity record
`{"type": ..., "line": ..., "variable": ...}`. -/
structure Finding where
  type : String
  line : Nat
  varName : List Char
deriving DecidableEq

/-- The finding `_find_hardcoded_secrets` appends for binding-site node `b`. -/
def mkSecretFinding (b : TSNode) : Finding :=
  { type := "HARDCODED_SECRET", line := b.startRow + 1, varName := b.text }

/-- The capture loop of `TreeSitterService._find_hardcoded_secrets`
(`main.py`): for every capture tagged `variable_name`, scan all captures for
`string_value` captures whose parent node equals the binding node's parent,
strip quotes from the value text, and emit a finding when both regex
heuristics pass. -/
def find_hardcoded_secrets (captures : List (TSNode × String)) : List Finding :=
  captures.flatMap fun cap =>
    if cap.2 = "variable_name" then
      captures.flatMap fun vcap =>
        if vcap.2 = "string_value" ∧ vcap.1.parentId = cap.1.parentId then
          if SENSITIVE_VAR_REGEX_search cap.1.text &&
             HIGH_ENTROPY_REGEX_search (strip_quotes vcap.1.text) then
            [mkSecretFinding cap.1]
          else []
        else []
    else []

/-- C1's reading of the detector, stated from the spec's words: the
correlated (binding-site, value-site) pairs, in discovery order, whose
identifier text matches the sensitivity lexicon and whose quote-stripped
value text passes the entropy check. -/
def claimPassingPairs (captures : List (TSNode × String)) : List (TSNode × TSNode) :=
  (captures.filter fun c => decide (c.2 = "variable_name")).flatMap fun b =>
    ((captures.filter fun v =>
        decide (v.2 = "string_value" ∧ v.1.parentId = b.1.parentId)).filter fun v =>
      SENSITIVE_VAR_REGEX_search b.1.text &&
        HIGH_ENTROPY_REGEX_search (strip_quotes v.1.text)).map
      fun v => (b.1, v.1)

/-- C2's reading of the entropy check, stated from the claim's words: at least
one lowercase letter, one uppercase letter, one digit, and at least 20
letters/digits counted over the whole string (not necessarily contiguous). -/
def claimEntropyCheck (s : List Char) : Bool :=
  s.any isLowerChar && s.any isUpperChar && s.any isDigitChar &&
    decide (20 ≤ (s.filter isAlnumChar).length)

/-- Remove one leading delimiter character, if present. -/
def dropOneQuote : List Char → List Char
  | [] => []
  | c :: rest => if isQuoteChar c then rest else c :: rest

/-- C3's reading of quote stripping, stated from the claim's words: exactly one
delimiter character removed from each end. -/
def claimStripOneLayer (s : List Char) : List Char :=
  (dropOneQuote (dropOneQuote s).reverse).reverse

/-! ### Query template selection (`main.py` and `api/index.py`) -/

/-- `main.py`: the initial value of `query_string` (the fallback for languages
with no registered template) — assignment-style. -/
def QUERY_ASSIGNMENT_DEFAULT_MAIN : String :=
  "\n        (assignment\n          left: (identifier) @variable_name\n          right: (string) @string_value)\n        "

/-- `main.py`: the template assigned when `language in ['python']`. -/
def QUERY_ASSIGNMENT_PYTHON_MAIN : String :=
  "\n            (assignment\n              left: (identifier) @variable_name\n              right: (string) @string_value)\n            "

/-- `main.py`: the template assigned when `language in ['javascript', 'typescript']`
— declarator-style. -/
def QUERY_DECLARATOR_MAIN : String :=
  "\n            (variable_declarator\n              name: (identifier) @variable_name\n              value: [(template_string) @string_value (string) @string_value])\n             "

/-- The `query_string` selection of `_find_hardcoded_secrets` in `main.py`. -/
def select_query_main (language : String) : String :=
  if language ∈ (["python"] : List String) then QUERY_ASSIGNMENT_PYTHON_MAIN
  else if language ∈ (["javascript", "typescript"] : List String) then QUERY_DECLARATOR_MAIN
  else QUERY_ASSIGNMENT_DEFAULT_MAIN

/-- `api/index.py`: the initial value of `query_string` (the fallback) —
declarator-style. -/
def QUERY_DECLARATOR_API : String :=
  "\n        (variable_declarator\n          name: (identifier) @variable_name\n          value: [(template_string) @string_value (string) @string_value])\n        "

/-- `api/index.py`: the template assigned when `language == 'python'`. -/
def QUERY_ASSIGNMENT_PYTHON_API : String :=
  "\n            (assignment\n              left: (identifier) @variable_name\n              right: (string) @string_value)\n            "

/-- The `query_string` selection of `_find_hardcoded_secrets` in `api/index.py`. -/
def select_query_api (language : String) : String :=
  if language = "python" then QUERY_ASSIGNMENT_PYTHON_API else QUERY_DECLARATOR_API

/-! ### The orchestrator (`TreeSitterService` in `main.py`)

The tree-sitter library is an external collaborator.  `getLang` models
`tree_sitter_languages.get_language` (`none` = it raises, i.e. the language is
unsupported); a parser handle is determined by its language object, so a
parser is modelled by the language value itself.  `runQuery` models
"parse `content`, compile the query string against the parser's language and
collect the captures": a pure function of the language handle, the query
string and the content. -/

structure HTTPException where
  statusCode : Nat
  detail : String
deriving DecidableEq

/-- The detail string of the `HTTPException` raised by `_getParser` in
`main.py` (`\x27` is the ASCII apostrophe around the language name). -/
def unsupportedDetail (language_name : String) : String :=
  "Parser for language \x27" ++ language_name ++ "\x27 is not supported or failed to load."

/-- The two caches of `TreeSitterService.__init__`: `self.parsers` and
`self.languages`, as association lists (most recent insertion first). -/
structure ServiceState (Lang : Type) where
  parsers : List (String × Lang)
  languages : List (String × Lang)

/-- `TreeSitterService._getParser`: return the cached parser if present;
otherwise fetch the language (through the language cache), build and cache a
parser, or raise an `HTTPException` with status 500 when the language cannot
be loaded. -/
def getParser {Lang : Type} (getLang : String → Option Lang) (st : ServiceState Lang)
    (language_name : String) : Except HTTPException (Lang × ServiceState Lang) :=
  match st.parsers.lookup language_name with
  | some p => .ok (p, st)
  | none =>
    match st.languages.lookup language_name with
    | some l => .ok (l, { st with parsers := (language_name, l) :: st.parsers })
    | none =>
      match getLang language_name with
      | some l => .ok (l, { parsers := (language_name, l) :: st.parsers,
                            languages := (language_name, l) :: st.languages })
      | none => .error { statusCode := 500, detail := unsupportedDetail language_name }

/-- The request body of `POST /analyze-file`. -/
structure AnalysisRequest where
  language : String
  content : String

/-- The value returned by `analyze_code`:
`{"status": "analyzed", "opportunities": [...]}`. -/
structure AnalysisResult where
  status : String
  opportunities : List Finding
deriving DecidableEq

/-- `TreeSitterService._find_hardcoded_secrets` at tree level (`main.py`):
select the query template for `language`, obtain the parser (a second
`_getParser` call), run the query over the parse tree of `content` and
evaluate the capture loop. -/
def run_find_hardcoded_secrets {Lang : Type} (getLang : String → Option Lang)
    (runQuery : Lang → String → String → List (TSNode × String))
    (st : ServiceState Lang) (content language : String) :
    Except HTTPException (List Finding × ServiceState Lang) :=
  match getParser getLang st language with
  | .error e => .error e
  | .ok (p, st1) =>
      .ok (find_hardcoded_secrets (runQuery p (select_query_main language) content), st1)

/-- `TreeSitterService.analyze_code` (`main.py`): obtain the parser (failing
the whole request if the language cannot be resolved), parse the content, run
the hardcoded-secret finder, and package the findings with the fixed status
marker. -/
def analyze_code {Lang : Type} (getLang : String → Option Lang)
    (runQuery : Lang → String → String → List (TSNode × String))
    (st : ServiceState Lang) (request : AnalysisRequest) :
    Except HTTPException (AnalysisResult × ServiceState Lang) :=
  match getParser getLang st request.language with
  | .error e => .error e
  | .ok (_, st1) =>
    match run_find_hardcoded_secrets getLang runQuery st1 request.content request.language with
    | .error e => .error e
    | .ok (secrets, st2) => .ok ({ status := "analyzed", opportunities := secrets }, st2)

/-- The caches only ever hold what `get_language` returned for the cached
name: true of every state reachable from the empty initial state. -/
def consistentState {Lang : Type} (getLang : String → Option Lang)
    (st : ServiceState Lang) : Prop :=
  (∀ n l, (n, l) ∈ st.parsers → getLang n = some l) ∧
  (∀ n l, (n, l) ∈ st.languages → getLang n = some l)

/-! ### The orchestrator with the query-compilation failure mode explicit

`parser.language.query(query_string)` in py-tree-sitter raises `ValueError`
when the query names node types that do not exist in that language's grammar
(e.g. the fallback `(assignment ...)` template against the `go` grammar).
Nothing in `main.py` catches it, so it escapes `analyze_code` as a generic
uncaught exception, distinct from the structured `HTTPException` of
`_get_parser`.  `analyze_code_q` refines `analyze_code` by keeping that step
fallible. -/

/-- An exception escaping `analyze_code`: either the structured
`HTTPException` raised by `_get_parser` (rendered as a response carrying its
detail), or an uncaught `ValueError` from query compilation, which surfaces
as a generic server crash. -/
inductive PyError where
  | httpException : HTTPException → PyError
  | valueError : String → PyError
deriving DecidableEq

/-- `TreeSitterService._find_hardcoded_secrets` at tree level, with query
compilation explicit: `compileQuery` models `parser.language.query(query_string)`
(`.error msg` = the `ValueError` it raises when the template's node types are
absent from the grammar) and `captures` models `query.captures(tree.root_node)`
over the parse tree of `content`. -/
def run_find_hardcoded_secrets_q {Lang Query : Type} (getLang : String → Option Lang)
    (compileQuery : Lang → String → Except String Query)
    (captures : Query → String → List (TSNode × String))
    (st : ServiceState Lang) (content language : String) :
    Except PyError (List Finding × ServiceState Lang) :=
  match getParser getLang st language with
  | .error e => .error (.httpException e)
  | .ok (p, st1) =>
    match compileQuery p (select_query_main language) with
    | .error msg => .error (.valueError msg)
    | .ok q => .ok (find_hardcoded_secrets (captures q content), st1)

/-- `TreeSitterService.analyze_code` with the query-compilation failure mode
kept distinct from the unsupported-language `HTTPException`. -/
def analyze_code_q {Lang Query : Type} (getLang : String → Option Lang)
    (compileQuery : Lang → String → Except String Query)
    (captures : Query → String → List (TSNode × String))
    (st : ServiceState Lang) (request : AnalysisRequest) :
    Except PyError (AnalysisResult × ServiceState Lang) :=
  match getParser getLang st request.language with
  | .error e => .error (.httpException e)
  | .ok (_, st1) =>
    match run_find_hardcoded_secrets_q getLang compileQuery captures st1
        request.content request.language with
    | .error e => .error e
    | .ok (secrets, st2) => .ok ({ status := "analyzed", opportunities := secrets }, st2)

/-! ### The AI service (`AIService` in `api/index.py`) -/

/-- Python values as far as `generate_insights` inspects them: the parsed JSON
reply is either a dict (on which `.get` works), or some other value (on which
`.get` raises `AttributeError`, caught by the `except`). -/
inductive PyVal : Type where
  | pyNone : PyVal
  | pyStr : String → PyVal
  | pyList : List PyVal → PyVal
  | pyDict : List (String × PyVal) → PyVal

/-- `AIService.create_universal_prompt`: the fixed f-string template
(`\x27` = apostrophe, `\x7b`/`\x7d` = literal braces). -/
def create_universal_prompt (language : String) (code_snippet : String) : String :=
  "\n        You are CodeCompass, a world-class principal software engineer and an expert in the programming language: " ++ language ++
  ".\n        \n        Perform a holistic code review of the following code snippet, which is written in " ++ language ++
  ".\n        \n        Analyze the code for any and all issues related to:\n        - Performance bottlenecks\n        - Readability and code style\n        - Security vulnerabilities\n        - Maintainability and anti-patterns\n        - Adherence to modern best practices for " ++ language ++
  "\n        \n        If you find opportunities for improvement, respond ONLY with a valid JSON object containing a single key \"opportunities\", which is a list of objects.\n        Each opportunity object must have the following keys: \"title\" (a short, descriptive title), \"problem\" (a simple, one-paragraph explanation with an analogy), and \"solution\" (a brief, step-by-step explanation using numbered points separated by \x27\\n\x27).\n        \n        If you find NO opportunities, respond ONLY with an empty JSON object: \x7b\"opportunities\": []\x7d.\n        \n        Do not include ```json markdown wrappers in your response.\n        \n        Code Snippet to Analyze:\n        ```\n        " ++ code_snippet ++
  "\n        ```\n        "

/-- `AIService.generate_insights`: build the prompt, call the model, clean and
JSON-parse the reply, and return `data.get("opportunities", [])`.  `callModel`
models the awaited `generate_content_async` call (`.error` = any exception:
network failure, quota, ...); `parseResponse` models the `re.sub` cleanup plus
`json.loads` (`.error` = non-JSON reply).  Every failure, including
`data.get` on a non-dict value, lands in the `except` branch, which returns
the empty list. -/
def generate_insights {ε : Type} (callModel : String → Except ε String)
    (parseResponse : String → Except ε PyVal) (request : AnalysisRequest) : PyVal :=
  match callModel (create_universal_prompt request.language request.content) with
  | .error _ => PyVal.pyList []
  | .ok text =>
    match parseResponse text with
    | .error _ => PyVal.pyList []
    | .ok data =>
      match data with
      | PyVal.pyDict kvs => (kvs.lookup "opportunities").getD (PyVal.pyList [])
      | _ => PyVal.pyList []

/-! ### Concrete inputs used by the witness theorems -/

/-- A binding-site capture node: `apiSecretKey` on 0-based row 2. -/
def witSecretNode : TSNode :=
  { id := 1, parentId := some 0, startRow := 2, text := "apiSecretKey".toList }

/-- The correlated value-site capture node. -/
def witValueNode : TSNode :=
  { id := 2, parentId := some 0, startRow := 2, text := "\"aB3xT9mQ7pL2fR8vN4wZ\"".toList }

/-- A capture set with one passing correlated pair. -/
def witCaptures : List (TSNode × String) :=
  [(witSecretNode, "variable_name"), (witValueNode, "string_value")]

/-- A capture set with a binding site and no value site at all. -/
def witOrphanCaptures : List (TSNode × String) :=
  [(witSecretNode, "variable_name")]

/-- A parser provider that supports every language (`Lang := Unit`). -/
def witGetLang : String → Option Unit := fun _ => some ()

/-- A parser provider that supports no language. -/
def witGetLangNone : String → Option Unit := fun _ => none

/-- A query runner that produces no captures. -/
def witRunQuery : Unit → String → String → List (TSNode × String) := fun _ _ _ => []

/-- A sample analysis request. -/
def witRequest : AnalysisRequest := { language := "python", content := "x = 1" }

/-- Query compilation failing as on the `go` grammar: py-tree-sitter raises
`ValueError` because the fallback template's `assignment` node type does not
exist there. -/
def witCompileFail : Unit → String → Except String Unit :=
  fun _ _ => .error "Invalid node type assignment"

/-- Query compilation that succeeds. -/
def witCompileOk : Unit → String → Except String Unit := fun _ _ => .ok ()

/-- `query.captures` returning no captures. -/
def witCapturesFn : Unit → String → List (TSNode × String) := fun _ _ => []

/-- A model call that always fails (network error, quota, ...). -/
def witCallModelErr : String → Except Unit String := fun _ => .error ()

/-- A model call that returns a reply. -/
def witCallModelOk : String → Except Unit String := fun _ => .ok "not json"

/-- A clean-and-parse step that fails (non-JSON reply). -/
def witParseErr : String → Except Unit PyVal := fun _ => .error ()

/-- A clean-and-parse step producing a JSON value that is not a dict. -/
def witParseList : String → Except Unit PyVal := fun _ => .ok (PyVal.pyList [])

/-! ### Helper lemmas about the capture loop -/

lemma flatMap_ite_prop {α β : Type} (l : List α) (p : α → Prop) [DecidablePred p]
    (f : α → List β) :
    (l.flatMap fun a => if p a then f a else []) =
      (l.filter fun a => decide (p a)).flatMap f := by
  induction l with
  | nil => simp
  | cons a l ih =>
    by_cases h : p a <;> simp [List.filter_cons, h, ih]

lemma flatMap_ite_single {α β : Type} (l : List α) (q : α → Bool) (g : α → β) :
    (l.flatMap fun a => if q a then [g a] else []) = (l.filter q).map g := by
  induction l with
  | nil => simp
  | cons a l ih =>
    cases h : q a <;> simp [List.filter_cons, h, ih]

lemma find_eq_claimPairs (captures : List (TSNode × String)) :
    find_hardcoded_secrets captures =
      (claimPassingPairs captures).map fun bv => mkSecretFinding bv.1 := by
  unfold find_hardcoded_secrets claimPassingPairs
  rw [flatMap_ite_prop, List.map_flatMap]
  refine congrArg _ (funext fun b => ?_)
  rw [flatMap_ite_prop, List.map_map]
  rw [← flatMap_ite_single]
  rfl

lemma mem_find_iff (captures : List (TSNode × String)) (f : Finding) :
    f ∈ find_hardcoded_secrets captures ↔
      ∃ b v : TSNode, (b, "variable_name") ∈ captures ∧ (v, "string_value") ∈ captures ∧
        v.parentId = b.parentId ∧ SENSITIVE_VAR_REGEX_search b.text = true ∧
        HIGH_ENTROPY_REGEX_search (strip_quotes v.text) = true ∧ f = mkSecretFinding b := by
  rw [find_eq_claimPairs]
  simp only [claimPassingPairs, List.mem_map, List.mem_flatMap, List.mem_filter,
    decide_eq_true_eq, Bool.and_eq_true]
  constructor
  · rintro ⟨⟨b, v⟩, ⟨⟨cb1, cb2⟩, ⟨⟨hbm, hbtag⟩, ⟨cv1, cv2⟩, ⟨⟨⟨hvm, hvtag, hvp⟩, hsens, hent⟩, hpair⟩⟩⟩, rfl⟩
    cases hpair
    subst hbtag; subst hvtag
    exact ⟨cb1, cv1, hbm, hvm, hvp, hsens, hent, rfl⟩
  · rintro ⟨b, v, hbm, hvm, hvp, hsens, hent, rfl⟩
    exact ⟨(b, v), ⟨⟨b, "variable_name"⟩, ⟨hbm, rfl⟩, ⟨v, "string_value"⟩,
      ⟨⟨hvm, rfl, hvp⟩, hsens, hent⟩, rfl⟩, rfl⟩

lemma high_entropy_length {s : List Char} (h : HIGH_ENTROPY_REGEX_search s = true) :
    20 ≤ s.length := by
  unfold HIGH_ENTROPY_REGEX_search at h
  rw [List.any_eq_true] at h
  obtain ⟨t, ht, hm⟩ := h
  rw [List.mem_tails] at ht
  have hlen := ht.length_le
  unfold HIGH_ENTROPY_REGEX_matchAt at hm
  simp only [Bool.and_eq_true, decide_eq_true_eq] at hm
  omega

lemma short_no_entropy {s : List Char} (h : s.length < 20) :
    HIGH_ENTROPY_REGEX_search s = false := by
  cases hE : HIGH_ENTROPY_REGEX_search s with
  | false => rfl
  | true => exact absurd (high_entropy_length hE) (by omega)

lemma containsSub_iff (w s : List Char) :
    containsSub w s = true ↔ ∃ p q, s = p ++ w ++ q := by
  unfold containsSub
  rw [List.any_eq_true]
  constructor
  · rintro ⟨t, ht, hp⟩
    rw [List.mem_tails] at ht
    obtain ⟨p, rfl⟩ := ht
    rw [List.isPrefixOf_iff_prefix] at hp
    obtain ⟨q, rfl⟩ := hp
    exact ⟨p, q, by simp⟩
  · rintro ⟨p, q, rfl⟩
    refine ⟨w ++ q, ?_, ?_⟩
    · rw [List.mem_tails]
      exact ⟨p, by simp⟩
    · rw [List.isPrefixOf_iff_prefix]
      exact ⟨q, rfl⟩

/-! ### Helper lemmas about the parser cache and the orchestrator -/

lemma lookup_consistent {Lang : Type} {getLang : String → Option Lang}
    {ps : List (String × Lang)} (h : ∀ n l, (n, l) ∈ ps → getLang n = some l)
    {name : String} {p : Lang} (hl : ps.lookup name = some p) :
    getLang name = some p := by
  induction ps with
  | nil => simp [List.lookup] at hl
  | cons kv ps ih =>
    obtain ⟨k, v⟩ := kv
    by_cases hk : name = k
    · subst hk
      rw [List.lookup_cons_self] at hl
      injection hl with hv
      subst hv
      exact h name v (by simp)
    · have hb : (name == k) = false := beq_false_of_ne hk
      rw [List.lookup, hb] at hl
      exact ih (fun n l hm => h n l (List.mem_cons_of_mem _ hm)) hl

lemma getParser_err {Lang : Type} {getLang : String → Option Lang}
    {st : ServiceState Lang} {name : String}
    (h : consistentState getLang st) (hn : getLang name = none) :
    getParser getLang st name = .error ⟨500, unsupportedDetail name⟩ := by
  have h1 : st.parsers.lookup name = none := by
    cases hl : st.parsers.lookup name with
    | none => rfl
    | some p =>
      have := lookup_consistent h.1 hl
      rw [hn] at this
      cases this
  have h2 : st.languages.lookup name = none := by
    cases hl : st.languages.lookup name with
    | none => rfl
    | some p =>
      have := lookup_consistent h.2 hl
      rw [hn] at this
      cases this
  simp [getParser, h1, h2, hn]

lemma getParser_ok {Lang : Type} {getLang : String → Option Lang}
    {st : ServiceState Lang} {name : String} {l : Lang}
    (h : consistentState getLang st) (hs : getLang name = some l) :
    ∃ st1, getParser getLang st name = .ok (l, st1) ∧ consistentState getLang st1 ∧
      st1.parsers.lookup name = some l := by
  cases hl : st.parsers.lookup name with
  | some p =>
    have hp := lookup_consistent h.1 hl
    rw [hs] at hp
    cases hp
    exact ⟨st, by simp [getParser, hl], h, hl⟩
  | none =>
    cases hll : st.languages.lookup name with
    | some l2 =>
      have hp := lookup_consistent h.2 hll
      rw [hs] at hp
      injection hp with hp'
      subst hp'
      refine ⟨{ st with parsers := (name, l) :: st.parsers }, ?_, ⟨?_, h.2⟩, ?_⟩
      · simp [getParser, hl, hll]
      · intro n l' hm
        rcases List.mem_cons.mp hm with heq | hm'
        · cases heq; exact hs
        · exact h.1 n l' hm'
      · exact List.lookup_cons_self
    | none =>
      refine ⟨{ parsers := (name, l) :: st.parsers,
                languages := (name, l) :: st.languages }, ?_, ⟨?_, ?_⟩, ?_⟩
      · simp [getParser, hl, hll, hs]
      · intro n l' hm
        rcases List.mem_cons.mp hm with heq | hm'
        · cases heq; exact hs
        · exact h.1 n l' hm'
      · intro n l' hm
        rcases List.mem_cons.mp hm with heq | hm'
        · cases heq; exact hs
        · exact h.2 n l' hm'
      · exact List.lookup_cons_self

lemma getParser_self_cached {Lang : Type} {getLang : String → Option Lang}
    {st : ServiceState Lang} {name : String} {p : Lang}
    (h : st.parsers.lookup name = some p) :
    getParser getLang st name = .ok (p, st) := by
  simp [getParser, h]

lemma analyze_code_err {Lang : Type} {getLang : String → Option Lang}
    {runQuery : Lang → String → String → List (TSNode × String)}
    {st : ServiceState Lang} {request : AnalysisRequest}
    (h : consistentState getLang st) (hn : getLang request.language = none) :
    analyze_code getLang runQuery st request =
      .error ⟨500, unsupportedDetail request.language⟩ := by
  simp [analyze_code, getParser_err h hn]

lemma analyze_code_cached {Lang : Type} {getLang : String → Option Lang}
    {runQuery : Lang → String → String → List (TSNode × String)}
    {st : ServiceState Lang} {request : AnalysisRequest} {l : Lang}
    (h : st.parsers.lookup request.language = some l) :
    analyze_code getLang runQuery st request =
      .ok ({ status := "analyzed",
             opportunities := find_hardcoded_secrets
               (runQuery l (select_query_main request.language) request.content) }, st) := by
  have hgp : getParser getLang st request.language = .ok (l, st) := getParser_self_cached h
  simp [analyze_code, run_find_hardcoded_secrets, hgp]

lemma analyze_code_ok {Lang : Type} {getLang : String → Option Lang}
    {runQuery : Lang → String → String → List (TSNode × String)}
    {st : ServiceState Lang} {request : AnalysisRequest} {l : Lang}
    (h : consistentState getLang st) (hs : getLang request.language = some l) :
    ∃ st1, analyze_code getLang runQuery st request =
      .ok ({ status := "analyzed",
             opportunities := find_hardcoded_secrets
               (runQuery l (select_query_main request.language) request.content) }, st1) ∧
      consistentState getLang st1 ∧ st1.parsers.lookup request.language = some l := by
  obtain ⟨st1, h1, hc1, hcache⟩ := getParser_ok h hs
  refine ⟨st1, ?_, hc1, hcache⟩
  have hgp : getParser getLang st1 request.language = .ok (l, st1) :=
    getParser_self_cached hcache
  simp [analyze_code, run_find_hardcoded_secrets, h1, hgp]

/-! ### Claim theorems -/

/-- C1: for every correlated (binding-site, value-site) pair in the capture
set whose identifier text matches the sensitivity lexicon and whose
quote-stripped value text passes the entropy check, the detector emits exactly
one finding, with kind tag `HARDCODED_SECRET`, subject equal to the
identifier's text, and line equal to the binding-site node's 1-based start
line — and nothing else. -/
theorem C1_one_finding_per_passing_pair (captures : List (TSNode × String)) :
    find_hardcoded_secrets captures =
      (claimPassingPairs captures).map fun bv =>
        { type := "HARDCODED_SECRET", line := bv.1.startRow + 1, varName := bv.1.text } := by
  rw [find_eq_claimPairs]
  rfl

/-- C2 counterexample: the claim reads the entropy check as "has a lowercase,
an uppercase, a digit, and at least 20 letters/digits in total, not
necessarily contiguous".  The string `aB1 aaaaaaaaaaaaaaaaaaaa` satisfies
that reading (23 letters/digits, all three classes present) but the regex
`(?=.*[a-z])(?=.*[A-Z])(?=.*[0-9])[a-zA-Z0-9]{20,}` rejects it: no run of 20
consecutive letters/digits is followed-at-or-after by all three classes. -/
theorem C2_counterexample :
    claimEntropyCheck "aB1 aaaaaaaaaaaaaaaaaaaa".toList = true ∧
    HIGH_ENTROPY_REGEX_search "aB1 aaaaaaaaaaaaaaaaaaaa".toList = false := by
  constructor <;> decide

/-- C2 amended: the entropy check accepts `s` iff `s` splits as `p ++ t` where
`t` starts with at least 20 consecutive letters/digits and the part of `t`
before the first newline contains at least one lowercase letter, at least one
uppercase letter and at least one digit. -/
theorem C2_entropy_check_characterization (s : List Char) :
    HIGH_ENTROPY_REGEX_search s = true ↔
      ∃ p t : List Char, s = p ++ t ∧ 20 ≤ t.length ∧
        (t.take 20).all isAlnumChar = true ∧
        (t.takeWhile notNewline).any isLowerChar = true ∧
        (t.takeWhile notNewline).any isUpperChar = true ∧
        (t.takeWhile notNewline).any isDigitChar = true := by
  unfold HIGH_ENTROPY_REGEX_search
  rw [List.any_eq_true]
  constructor
  · rintro ⟨t, ht, hm⟩
    rw [List.mem_tails] at ht
    obtain ⟨p, rfl⟩ := ht
    unfold HIGH_ENTROPY_REGEX_matchAt at hm
    simp only [Bool.and_eq_true, decide_eq_true_eq] at hm
    exact ⟨p, t, rfl, hm.2.1, hm.2.2, hm.1.1.1, hm.1.1.2, hm.1.2⟩
  · rintro ⟨p, t, rfl, h20, halnum, hl, hu, hd⟩
    refine ⟨t, ?_, ?_⟩
    · rw [List.mem_tails]
      exact ⟨p, rfl⟩
    · unfold HIGH_ENTROPY_REGEX_matchAt
      simp only [Bool.and_eq_true, decide_eq_true_eq]
      exact ⟨⟨⟨hl, hu⟩, hd⟩, h20, halnum⟩

/-- C3 counterexample: the claim says exactly one delimiter character is
removed from each end, but `str.strip('\'"`')` removes every leading and
trailing delimiter: on the triple-quoted literal text `"""aB3xT9mQ7pL2fR8vN4wZ"""`
the code strips all three quotes from each end, not one. -/
theorem C3_counterexample :
    strip_quotes "\"\"\"aB3xT9mQ7pL2fR8vN4wZ\"\"\"".toList =
      "aB3xT9mQ7pL2fR8vN4wZ".toList ∧
    claimStripOneLayer "\"\"\"aB3xT9mQ7pL2fR8vN4wZ\"\"\"".toList =
      "\"\"aB3xT9mQ7pL2fR8vN4wZ\"\"".toList ∧
    strip_quotes "\"\"\"aB3xT9mQ7pL2fR8vN4wZ\"\"\"".toList ≠
      claimStripOneLayer "\"\"\"aB3xT9mQ7pL2fR8vN4wZ\"\"\"".toList := by
  refine ⟨by decide, by decide, by decide⟩

/-- C3 amended: before the entropy check, the value node's literal text is
stripped of ALL leading and trailing quote/backtick delimiter characters
(Python `str.strip` semantics) and of nothing else: the stripped text is a
contiguous segment of the original whose removed margins consist of delimiter
characters only and whose own ends are not delimiter characters. -/
theorem C3_strip_quotes_characterization (s : List Char) :
    ∃ p q : List Char,
      s = p ++ strip_quotes s ++ q ∧
      p.all isQuoteChar = true ∧ q.all isQuoteChar = true ∧
      (strip_quotes s).head?.all (fun c => !isQuoteChar c) = true ∧
      (strip_quotes s).getLast?.all (fun c => !isQuoteChar c) = true := by
  refine ⟨s.takeWhile isQuoteChar,
    ((s.dropWhile isQuoteChar).reverse.takeWhile isQuoteChar).reverse, ?_, ?_, ?_, ?_, ?_⟩
  · have h1 : s.takeWhile isQuoteChar ++ s.dropWhile isQuoteChar = s :=
      List.takeWhile_append_dropWhile _ _
    have h2 : (s.dropWhile isQuoteChar).reverse.takeWhile isQuoteChar ++
        (s.dropWhile isQuoteChar).reverse.dropWhile isQuoteChar =
        (s.dropWhile isQuoteChar).reverse :=
      List.takeWhile_append_dropWhile _ _
    have h3 : s.dropWhile isQuoteChar =
        strip_quotes s ++ ((s.dropWhile isQuoteChar).reverse.takeWhile isQuoteChar).reverse := by
      have h4 := congrArg List.reverse h2
      simp only [List.reverse_append, List.reverse_reverse] at h4
      exact h4.symm
    conv_lhs => rw [← h1, h3]
    rw [List.append_assoc]
  · rw [List.all_eq_true]
    intro x hx
    exact List.mem_takeWhile_imp hx
  · rw [List.all_eq_true]
    intro x hx
    rw [List.mem_reverse] at hx
    exact List.mem_takeWhile_imp hx
  · show ((((s.dropWhile isQuoteChar).reverse.dropWhile isQuoteChar).reverse).head?).all
      (fun c => !isQuoteChar c) = true
    cases hBr : ((s.dropWhile isQuoteChar).reverse.dropWhile isQuoteChar).reverse with
    | nil => rfl
    | cons c l =>
      have h2 : (s.dropWhile isQuoteChar).reverse.takeWhile isQuoteChar ++
          (s.dropWhile isQuoteChar).reverse.dropWhile isQuoteChar =
          (s.dropWhile isQuoteChar).reverse :=
        List.takeWhile_append_dropWhile _ _
      have h3 : s.dropWhile isQuoteChar =
          (c :: l) ++ ((s.dropWhile isQuoteChar).reverse.takeWhile isQuoteChar).reverse := by
        have h4 := congrArg List.reverse h2
        simp only [List.reverse_append, List.reverse_reverse] at h4
        rw [hBr] at h4
        exact h4.symm
    -- the head of the stripped text is the head of `dropWhile isQuoteChar s`
      have h6 := List.head?_dropWhile_not isQuoteChar s
      rw [h3] at h6
      simp only [List.cons_append, List.head?_cons] at h6
      simp [h6]
  · show ((((s.dropWhile isQuoteChar).reverse.dropWhile isQuoteChar).reverse).getLast?).all
      (fun c => !isQuoteChar c) = true
    rw [List.getLast?_eq_head?_reverse, List.reverse_reverse]
    have h5 := List.head?_dropWhile_not isQuoteChar (s.dropWhile isQuoteChar).reverse
    cases hB : ((s.dropWhile isQuoteChar).reverse.dropWhile isQuoteChar).head? with
    | none => rfl
    | some c =>
      rw [hB] at h5
      simp [h5]

/-- C10: the sensitivity check is an unanchored, case-insensitive substring
search: it passes exactly when the lower-cased identifier text contains one of
the five lexicon words `key`, `secret`, `token`, `password`, `cred` as a
contiguous substring anywhere. -/
theorem C10_sensitivity_substring_characterization (s : List Char) :
    SENSITIVE_VAR_REGEX_search s = true ↔
      ∃ w ∈ SENSITIVE_WORDS, ∃ p q : List Char, s.map Char.toLower = p ++ w ++ q := by
  unfold SENSITIVE_VAR_REGEX_search
  rw [List.any_eq_true]
  constructor
  · rintro ⟨w, hw, hc⟩
    exact ⟨w, hw, (containsSub_iff w _).mp hc⟩
  · rintro ⟨w, hw, hc⟩
    exact ⟨w, hw, (containsSub_iff w _).mpr hc⟩

/-- C6: a finding is produced only when the sensitivity check and the entropy
check both pass for a correlated pair (logical AND), which forces the stripped
value to have at least 20 characters; and any stripped value shorter than 20
characters fails the entropy check outright. -/
theorem C6_findings_require_both_checks :
    (∀ (captures : List (TSNode × String)) (f : Finding),
      f ∈ find_hardcoded_secrets captures →
        ∃ b v : TSNode, (b, "variable_name") ∈ captures ∧ (v, "string_value") ∈ captures ∧
          v.parentId = b.parentId ∧ SENSITIVE_VAR_REGEX_search b.text = true ∧
          HIGH_ENTROPY_REGEX_search (strip_quotes v.text) = true ∧
          20 ≤ (strip_quotes v.text).length ∧ f = mkSecretFinding b) ∧
    (∀ s : List Char, s.length < 20 → HIGH_ENTROPY_REGEX_search s = false) := by
  constructor
  · intro captures f hf
    obtain ⟨b, v, h1, h2, h3, h4, h5, h6⟩ := (mem_find_iff captures f).mp hf
    exact ⟨b, v, h1, h2, h3, h4, h5, high_entropy_length h5, h6⟩
  · intro s hs
    exact short_no_entropy hs

theorem C6_witness :
    (∃ b v : TSNode, (b, "variable_name") ∈ witCaptures ∧ (v, "string_value") ∈ witCaptures ∧
       v.parentId = b.parentId ∧ SENSITIVE_VAR_REGEX_search b.text = true ∧
       HIGH_ENTROPY_REGEX_search (strip_quotes v.text) = true ∧
       20 ≤ (strip_quotes v.text).length ∧ mkSecretFinding witSecretNode = mkSecretFinding b) ∧
    HIGH_ENTROPY_REGEX_search "short1".toList = false :=
  ⟨C6_findings_require_both_checks.1 witCaptures (mkSecretFinding witSecretNode) (by decide),
   C6_findings_require_both_checks.2 "short1".toList (by decide)⟩

/-- C7: the evaluator pairs a binding-site capture exactly with the value-site
captures that share its parent node (by identity of the parent, wherever they
occur in the capture list); an empty capture set yields no findings, and if no
value-site capture shares a parent with any binding-site capture, the findings
list is empty (no finding, no error — the function is total). -/
theorem C7_pairing_by_parent_identity :
    find_hardcoded_secrets [] = [] ∧
    (∀ captures : List (TSNode × String),
      (∀ b v : TSNode, (b, "variable_name") ∈ captures → (v, "string_value") ∈ captures →
        v.parentId ≠ b.parentId) →
      find_hardcoded_secrets captures = []) ∧
    (∀ (captures : List (TSNode × String)) (b v : TSNode),
      (b, "variable_name") ∈ captures → (v, "string_value") ∈ captures →
      v.parentId = b.parentId → SENSITIVE_VAR_REGEX_search b.text = true →
      HIGH_ENTROPY_REGEX_search (strip_quotes v.text) = true →
      mkSecretFinding b ∈ find_hardcoded_secrets captures) := by
  refine ⟨rfl, ?_, ?_⟩
  · intro captures h
    rcases hE : find_hardcoded_secrets captures with _ | ⟨f, fs⟩
    · rfl
    · exfalso
      have hf : f ∈ find_hardcoded_secrets captures := by rw [hE]; simp
      obtain ⟨b, v, h1, h2, h3, _, _, _⟩ := (mem_find_iff captures f).mp hf
      exact h b v h1 h2 h3
  · intro captures b v h1 h2 h3 h4 h5
    exact (mem_find_iff captures _).mpr ⟨b, v, h1, h2, h3, h4, h5, rfl⟩

theorem C7_witness :
    find_hardcoded_secrets witOrphanCaptures = [] ∧
    mkSecretFinding witSecretNode ∈ find_hardcoded_secrets witCaptures :=
  ⟨C7_pairing_by_parent_identity.2.1 witOrphanCaptures
      (by intro b v _ hv; simp [witOrphanCaptures] at hv),
   C7_pairing_by_parent_identity.2.2 witCaptures witSecretNode witValueNode
      (by decide) (by decide) (by decide) (by decide) (by decide)⟩

/-- C5 counterexample: `go` has no registered template, yet the engine in
`api/index.py` selects the declarator-style template, not the
assignment-style one, contradicting the claim for that engine. -/
theorem C5_counterexample :
    select_query_api "go" = QUERY_DECLARATOR_API ∧
    QUERY_DECLARATOR_API ≠ QUERY_ASSIGNMENT_PYTHON_API :=
  ⟨rfl, by decide⟩

/-- C5 amended: in `main.py` a language with no registered template falls back
to the assignment-style template, but in `api/index.py` it falls back to the
declarator-style template. -/
theorem C5_fallback_templates :
    (∀ language : String,
      language ∉ (["python", "javascript", "typescript"] : List String) →
      select_query_main language = QUERY_ASSIGNMENT_DEFAULT_MAIN) ∧
    (∀ language : String, language ≠ "python" →
      select_query_api language = QUERY_DECLARATOR_API) := by
  constructor
  · intro language h
    simp only [List.mem_cons, List.not_mem_nil, or_false, not_or] at h
    obtain ⟨h1, h2, h3⟩ := h
    simp [select_query_main, h1, h2, h3]
  · intro language h
    simp [select_query_api, h]

theorem C5_witness :
    select_query_main "go" = QUERY_ASSIGNMENT_DEFAULT_MAIN ∧
    select_query_api "ruby" = QUERY_DECLARATOR_API :=
  ⟨C5_fallback_templates.1 "go" (by decide), C5_fallback_templates.2 "ruby" (by decide)⟩

/-- C4 counterexample: `go` resolves to a parser (the provider returns one),
yet the request does not return a well-formed `analyzed` result: query
compilation of the fallback `(assignment ...)` template raises `ValueError`
on the `go` grammar, and the uncaught exception escapes `analyze_code` as a
generic crash — not the structured unsupported-language `HTTPException`. -/
theorem C4_counterexample :
    witGetLang "go" = some () ∧
    analyze_code_q witGetLang witCompileFail witCapturesFn ⟨[], []⟩
        { language := "go", content := "x = 1" } =
      .error (PyError.valueError "Invalid node type assignment") :=
  ⟨rfl, rfl⟩

/-- C4 amended: if the language identifier cannot be resolved to a parser,
the whole request fails with the distinguishable unsupported-language
`HTTPException` naming the language; if the language resolves AND the selected
query template compiles against its grammar, the analysis returns a
well-formed result with status marker `analyzed` and a (possibly empty)
findings list; but if the language resolves while the query template does not
compile for its grammar, the request fails with the uncaught query-compilation
`ValueError` — a generic crash, not the structured condition. -/
theorem C4_language_resolution (Lang Query : Type) (getLang : String → Option Lang)
    (compileQuery : Lang → String → Except String Query)
    (captures : Query → String → List (TSNode × String))
    (st : ServiceState Lang) (request : AnalysisRequest) :
    (st.parsers.lookup request.language = none →
     st.languages.lookup request.language = none →
     getLang request.language = none →
      analyze_code_q getLang compileQuery captures st request =
        .error (.httpException { statusCode := 500,
                                 detail := unsupportedDetail request.language })) ∧
    (∀ l q, consistentState getLang st → getLang request.language = some l →
      compileQuery l (select_query_main request.language) = .ok q →
      ∃ st1, analyze_code_q getLang compileQuery captures st request =
        .ok ({ status := "analyzed",
               opportunities := find_hardcoded_secrets (captures q request.content) }, st1)) ∧
    (∀ l msg, consistentState getLang st → getLang request.language = some l →
      compileQuery l (select_query_main request.language) = .error msg →
      analyze_code_q getLang compileQuery captures st request =
        .error (.valueError msg)) := by
  refine ⟨?_, ?_, ?_⟩
  · intro h1 h2 h3
    simp [analyze_code_q, getParser, h1, h2, h3]
  · intro l q h hs hq
    obtain ⟨st1, hgp, hc1, hcache⟩ := getParser_ok h hs
    have hgp2 : getParser getLang st1 request.language = .ok (l, st1) :=
      getParser_self_cached hcache
    exact ⟨st1, by simp [analyze_code_q, run_find_hardcoded_secrets_q, hgp, hgp2, hq]⟩
  · intro l msg h hs hq
    obtain ⟨st1, hgp, hc1, hcache⟩ := getParser_ok h hs
    have hgp2 : getParser getLang st1 request.language = .ok (l, st1) :=
      getParser_self_cached hcache
    simp [analyze_code_q, run_find_hardcoded_secrets_q, hgp, hgp2, hq]

theorem C4_witness :
    analyze_code_q witGetLangNone witCompileOk witCapturesFn ⟨[], []⟩
        { language := "klingon", content := "" } =
      .error (.httpException { statusCode := 500, detail := unsupportedDetail "klingon" }) ∧
    (∃ st1, analyze_code_q witGetLang witCompileOk witCapturesFn ⟨[], []⟩ witRequest =
      .ok ({ status := "analyzed",
             opportunities := find_hardcoded_secrets (witCapturesFn () witRequest.content) }, st1)) ∧
    analyze_code_q witGetLang witCompileFail witCapturesFn ⟨[], []⟩
        { language := "go", content := "x = 1" } =
      .error (.valueError "Invalid node type assignment") :=
  ⟨(C4_language_resolution Unit Unit witGetLangNone witCompileOk witCapturesFn ⟨[], []⟩
      { language := "klingon", content := "" }).1 rfl rfl rfl,
   (C4_language_resolution Unit Unit witGetLang witCompileOk witCapturesFn ⟨[], []⟩
      witRequest).2.1 () () (by constructor <;> intro n l hm <;> simp at hm) rfl rfl,
   (C4_language_resolution Unit Unit witGetLang witCompileFail witCapturesFn ⟨[], []⟩
      { language := "go", content := "x = 1" }).2.2 () "Invalid node type assignment"
      (by constructor <;> intro n l hm <;> simp at hm) rfl rfl⟩

/-- C8: the detector is deterministic: with caches that hold only what the
parser provider returns (true of every reachable cache state, cold or warm),
the analysis result is independent of the cache state, and re-running the
analysis on the state left by a first run reproduces the first run's result
exactly. -/
theorem C8_deterministic_across_cache_states (Lang : Type)
    (getLang : String → Option Lang)
    (runQuery : Lang → String → String → List (TSNode × String))
    (st st2 : ServiceState Lang) (request : AnalysisRequest)
    (h : consistentState getLang st) (h2 : consistentState getLang st2) :
    ((analyze_code getLang runQuery st request).map Prod.fst =
      (analyze_code getLang runQuery st2 request).map Prod.fst) ∧
    (∀ res st1, analyze_code getLang runQuery st request = .ok (res, st1) →
      analyze_code getLang runQuery st1 request = .ok (res, st1)) := by
  constructor
  · cases hg : getLang request.language with
    | none => rw [analyze_code_err h hg, analyze_code_err h2 hg]
    | some l =>
      obtain ⟨sa, ha, _, _⟩ := @analyze_code_ok Lang getLang runQuery st request l h hg
      obtain ⟨sb, hb, _, _⟩ := @analyze_code_ok Lang getLang runQuery st2 request l h2 hg
      rw [ha, hb]
      exact rfl
  · intro res st1 hr
    cases hg : getLang request.language with
    | none =>
      rw [analyze_code_err h hg] at hr
      exact Except.noConfusion hr
    | some l =>
      obtain ⟨sa, ha, hca, hcachea⟩ := @analyze_code_ok Lang getLang runQuery st request l h hg
      rw [ha] at hr
      simp only [Except.ok.injEq, Prod.mk.injEq] at hr
      obtain ⟨hres, hst⟩ := hr
      subst hst
      rw [← hres]
      exact analyze_code_cached hcachea

theorem C8_witness :
    ((analyze_code witGetLang witRunQuery ⟨[], []⟩ witRequest).map Prod.fst =
      (analyze_code witGetLang witRunQuery ⟨[], []⟩ witRequest).map Prod.fst) ∧
    analyze_code witGetLang witRunQuery ⟨[("python", ())], [("python", ())]⟩ witRequest =
      .ok ({ status := "analyzed", opportunities := [] },
           ⟨[("python", ())], [("python", ())]⟩) :=
  have h := C8_deterministic_across_cache_states Unit witGetLang witRunQuery ⟨[], []⟩ ⟨[], []⟩
    witRequest (by constructor <;> intro n l hm <;> simp at hm)
    (by constructor <;> intro n l hm <;> simp at hm)
  ⟨h.1, h.2 { status := "analyzed", opportunities := [] }
    ⟨[("python", ())], [("python", ())]⟩ rfl⟩

/-- C9: `generate_insights` never raises: on a failed model call, a reply the
cleanup/JSON-parse step cannot parse, or a parsed reply that is not a JSON
object, it returns the empty opportunities list instead of propagating the
error. -/
theorem C9_generate_insights_absorbs_failures (ε : Type)
    (callModel : String → Except ε String) (parseResponse : String → Except ε PyVal)
    (request : AnalysisRequest) :
    (∀ e, callModel (create_universal_prompt request.language request.content) = .error e →
      generate_insights callModel parseResponse request = PyVal.pyList []) ∧
    (∀ text e, callModel (create_universal_prompt request.language request.content) = .ok text →
      parseResponse text = .error e →
      generate_insights callModel parseResponse request = PyVal.pyList []) ∧
    (∀ text data, callModel (create_universal_prompt request.language request.content) = .ok text →
      parseResponse text = .ok data → (∀ kvs, data ≠ PyVal.pyDict kvs) →
      generate_insights callModel parseResponse request = PyVal.pyList []) := by
  refine ⟨?_, ?_, ?_⟩
  · intro e he
    simp [generate_insights, he]
  · intro text e h1 h2
    simp [generate_insights, h1, h2]
  · intro text data h1 h2 h3
    cases data with
    | pyDict kvs => exact absurd rfl (h3 kvs)
    | pyNone => simp [generate_insights, h1, h2]
    | pyStr s => simp [generate_insights, h1, h2]
    | pyList l => simp [generate_insights, h1, h2]

theorem C9_witness :
    generate_insights witCallModelErr witParseErr witRequest = PyVal.pyList [] ∧
    generate_insights witCallModelOk witParseErr witRequest = PyVal.pyList [] ∧
    generate_insights witCallModelOk witParseList witRequest = PyVal.pyList [] :=
  ⟨(C9_generate_insights_absorbs_failures Unit witCallModelErr witParseErr witRequest).1 () rfl,
   (C9_generate_insights_absorbs_failures Unit witCallModelOk witParseErr witRequest).2.1
      "not json" () rfl rfl,
   (C9_generate_insights_absorbs_failures Unit witCallModelOk witParseList witRequest).2.2
      "not json" (PyVal.pyList []) rfl rfl (fun _ h => PyVal.noConfusion h)⟩

end CodeCompass
